import Mathlib

/-!
Verification development for the TechOps IT-hardware storefront
(`script.js` plain-DOM implementation and `checkout-app.js` Vue
implementation).  The cart store, its localStorage persistence, and the
form validators are embedded shallowly: prices are rationals (JS numbers
computed exactly on the inputs at issue), quantities are integers, the
string validators operate on the character lists of Lean strings, and
localStorage is the value stored under the `cart` key, abstracted at the
level of parsed JSON values (`JSON.stringify`/`JSON.parse` are mutually
inverse between objects and their text, so the round-trip content is
captured by the JSON-value layer).
-/

/-- Character class of JavaScript's regex `\s` (and of `String.prototype.trim`):
space, tab, line terminators, and the Unicode space separators. -/
def isJsSpace (c : Char) : Bool :=
  c == ' ' || c == '\t' || c == '\n' || c == '\r' || c == '\x0b' || c == '\x0c' ||
  c == ' ' || c == ' ' || c == ' ' || c == ' ' || c == ' ' ||
  c == ' ' || c == ' ' || c == ' ' || c == ' ' || c == ' ' ||
  c == ' ' || c == ' ' || c == ' ' || c == ' ' || c == ' ' ||
  c == ' ' || c == ' ' || c == '　' || c == '﻿'

/-- JavaScript `s.trim()`, as a character list: strips leading and trailing
`\s`-class characters. -/
def jsTrim (s : String) : List Char :=
  ((s.data.dropWhile isJsSpace).reverse.dropWhile isJsSpace).reverse

/-- JavaScript `s.replace(/\D/g, '')`: the digit characters of `s`, in order. -/
def stripNonDigits (s : String) : List Char :=
  s.data.filter Char.isDigit

/-- Numeric value of a digit character. -/
def digitVal (c : Char) : Nat :=
  c.toNat - 48

/-- A product record from `products-data.json`.  The catalog's remaining
fields (description, image, category) are never read by the cart logic and
are omitted. -/
structure Product where
  name : String
  price : ℚ
deriving Repr, DecidableEq

/-- A cart line item, as pushed by `addToCart` in `script.js`
(`{ name, price, quantity, originalPrice, isDiscounted }`). -/
structure CartItem where
  name : String
  price : ℚ
  quantity : ℤ
  originalPrice : ℚ
  isDiscounted : Bool
deriving Repr, DecidableEq

/-- Parsed JSON values, the abstraction of the strings held in localStorage
(`JSON.stringify` and `JSON.parse` are mutually inverse between a JS value
and its serialized text). -/
inductive JValue where
  | null
  | bool (b : Bool)
  | num (q : ℚ)
  | str (s : String)
  | arr (elems : List JValue)
  | obj (fields : List (String × JValue))

/-- Serialization of one cart item: `JSON.stringify` writes the object's
fields in insertion order, which for items built by `addToCart` is
name, price, quantity, originalPrice, isDiscounted. -/
def encodeItem (it : CartItem) : JValue :=
  JValue.obj [("name", JValue.str it.name), ("price", JValue.num it.price),
    ("quantity", JValue.num (it.quantity : ℚ)), ("originalPrice", JValue.num it.originalPrice),
    ("isDiscounted", JValue.bool it.isDiscounted)]

/-- Serialization of the whole cart array. -/
def encodeCart (c : List CartItem) : JValue :=
  JValue.arr (c.map encodeItem)

/-- Deserialization of one cart item: accepts exactly the shape that
`JSON.stringify` produced for a cart line (the source performs no shape
validation of its own, and no modeled operation ever stores anything else
under the key). -/
def decodeItem : JValue → Option CartItem
  | JValue.obj (("name", JValue.str n) :: ("price", JValue.num p) ::
      ("quantity", JValue.num q) :: ("originalPrice", JValue.num o) ::
      ("isDiscounted", JValue.bool b) :: []) =>
    if q.den == 1 then
      some { name := n, price := p, quantity := q.num, originalPrice := o, isDiscounted := b }
    else none
  | _ => none

/-- Deserialization of a list of cart items, element by element. -/
def decodeItems : List JValue → Option (List CartItem)
  | [] => some []
  | v :: vs =>
    match decodeItem v, decodeItems vs with
    | some it, some rest => some (it :: rest)
    | _, _ => none

/-- Deserialization of the cart array. -/
def decodeCartJson : JValue → Option (List CartItem)
  | JValue.arr vs => decodeItems vs
  | _ => none

/-- The browser state the cart logic touches: the in-memory `cart` array and
the localStorage value under the `cart` key (`none` means the key is absent). -/
structure AppState where
  cart : List CartItem
  storage : Option JValue

/-- The storage value written by `saveCartToStorage` in `script.js`
(`localStorage.setItem('cart', JSON.stringify(cart))`). -/
def saveCartToStorage (c : List CartItem) : Option JValue :=
  some (encodeCart c)

/-- Translation of `loadCartFromStorage` in `script.js`:
`cart = JSON.parse(localStorage.getItem('cart') || '[]')`, with the catch
branch resetting to the empty cart.  An absent key parses as `[]`; the
fallback to `[]` on a value not shaped like a cart models the catch branch
and is never exercised by states the modeled operations produce. -/
def loadCartFromStorage (st : AppState) : AppState :=
  { st with
    cart := match st.storage with
      | none => []
      | some v => (decodeCartJson v).getD [] }

/-- JavaScript `cart.find(item => item.name === n)`: the first line item
with the given product name. -/
def findItem (c : List CartItem) (n : String) : Option CartItem :=
  c.find? (fun it => it.name == n)

/-- In-place mutation of the item that `cart.find` located: rewrite the
first line whose name matches, leave everything else untouched. -/
def updateFirst (c : List CartItem) (n : String) (f : CartItem → CartItem) : List CartItem :=
  match c with
  | [] => []
  | it :: rest => if it.name == n then f it :: rest else it :: updateFirst rest n f

/-- Translation of `addToCart` in `script.js` (the cart mutation and save;
the button-disabling UI around it is not modeled).  `discountedPrice` is the
optional `data-price` attribute of the clicked button; a missing product is
reported with an alert and performs no mutation and no save.  Note the
source computes `discountedPrice || product.price`, so a `data-price` of `0`
falls back to the catalog price while still marking the line discounted. -/
def addToCart (products : List Product) (discountedPrice : Option ℚ) (productName : String)
    (st : AppState) : AppState :=
  match products.find? (fun p => p.name == productName) with
  | none => st
  | some product =>
    let finalPrice : ℚ :=
      match discountedPrice with
      | some d => if d == 0 then product.price else d
      | none => product.price
    let newItem : CartItem :=
      { name := productName, price := finalPrice, quantity := 1,
        originalPrice := product.price, isDiscounted := discountedPrice.isSome }
    let newCart : List CartItem :=
      match findItem st.cart productName with
      | some _ => updateFirst st.cart productName (fun it => { it with quantity := it.quantity + 1 })
      | none => st.cart ++ [newItem]
    { cart := newCart, storage := saveCartToStorage newCart }

/-- Translation of `removeFromCart` in `script.js`:
`cart = cart.filter(item => item.name !== productName)` then save. -/
def removeFromCart (productName : String) (st : AppState) : AppState :=
  let c := st.cart.filter (fun it => it.name != productName)
  { cart := c, storage := saveCartToStorage c }

/-- Translation of `updateCartQuantity` in `script.js`: a new quantity of 0
or less removes the item; otherwise the first matching line's quantity is
set and the cart saved (no save when the name is absent). -/
def updateCartQuantity (productName : String) (newQuantity : ℤ) (st : AppState) : AppState :=
  if newQuantity ≤ 0 then removeFromCart productName st
  else
    match findItem st.cart productName with
    | some _ =>
      let c := updateFirst st.cart productName (fun it => { it with quantity := newQuantity })
      { cart := c, storage := saveCartToStorage c }
    | none => st

/-- Translation of `increaseQuantity` in `script.js`. -/
def increaseQuantity (productName : String) (st : AppState) : AppState :=
  match findItem st.cart productName with
  | some _ =>
    let c := updateFirst st.cart productName (fun it => { it with quantity := it.quantity + 1 })
    { cart := c, storage := saveCartToStorage c }
  | none => st

/-- Translation of `decreaseQuantity` in `script.js`: quantity above 1 is
decremented; quantity exactly 1 removes the line. -/
def decreaseQuantity (productName : String) (st : AppState) : AppState :=
  match findItem st.cart productName with
  | some it =>
    if 1 < it.quantity then
      let c := updateFirst st.cart productName (fun x => { x with quantity := x.quantity - 1 })
      { cart := c, storage := saveCartToStorage c }
    else if it.quantity == 1 then removeFromCart productName st
    else st
  | none => st

/-- Translation of `clearCart` in `script.js`: `cart = []` followed by
`saveCartToStorage()` (the modal refresh is not modeled).  Note it saves the
empty array under the key; it does not remove the key. -/
def clearCart (_st : AppState) : AppState :=
  { cart := [], storage := saveCartToStorage [] }

/-- One user-level cart operation, as dispatched by the store's UI handlers. -/
inductive CartOp where
  | add (products : List Product) (discountedPrice : Option ℚ) (name : String)
  | increase (name : String)
  | decrease (name : String)
  | remove (name : String)
  | update (name : String) (newQuantity : ℤ)

/-- Dispatch of one cart operation on the browser state. -/
def applyOp (st : AppState) : CartOp → AppState
  | CartOp.add ps d n => addToCart ps d n st
  | CartOp.increase n => increaseQuantity n st
  | CartOp.decrease n => decreaseQuantity n st
  | CartOp.remove n => removeFromCart n st
  | CartOp.update n q => updateCartQuantity n q st

/-- Run a sequence of cart operations starting from the empty cart with no
stored key (the state of a first visit). -/
def runOps (ops : List CartOp) : AppState :=
  ops.foldl applyOp { cart := [], storage := none }

/-- The cart invariant: line-item product names are pairwise distinct and
every line's quantity is at least 1. -/
def cartInv (c : List CartItem) : Prop :=
  (c.map (fun it => it.name)).Nodup ∧ ∀ it ∈ c, 1 ≤ it.quantity

/-- The character class `[\d\s+\-()]` used by the phone and mobile
validators. -/
def isPhoneChar (c : Char) : Bool :=
  c.isDigit || isJsSpace c || c == '+' || c == '-' || c == '(' || c == ')'

/-- The character class `[a-zA-Z\s'-]` used by the name validators. -/
def isNameChar (c : Char) : Bool :=
  ('a' ≤ c && c ≤ 'z') || ('A' ≤ c && c ≤ 'Z') || isJsSpace c || c == Char.ofNat 39 || c == '-'

/-- Match of the email regex `^[^\s@]+@[^\s@]+\.[^\s@]+$`: exactly one `@`,
a nonempty space-free part before it, and after it a nonempty space-free
part containing a dot that is neither its first nor its last character. -/
def hasDotNotLast : List Char → Bool
  | [] => false
  | [_] => false
  | c :: rest => c == '.' || hasDotNotLast rest

/-- See `hasDotNotLast`; the domain part must split as `B ++ "." ++ C` with
`B` and `C` nonempty. -/
def hasInnerDot : List Char → Bool
  | [] => false
  | _ :: rest => hasDotNotLast rest

/-- Boolean match of `^[^\s@]+@[^\s@]+\.[^\s@]+$` against a whole string:
exactly one `@` (the class `[^\s@]` bars `@` from every other position), so
splitting on `@` must give exactly two parts, each nonempty and space-free,
the second with an inner dot. -/
def emailMatch (s : String) : Bool :=
  match s.data.splitOn '@' with
  | [b, a] =>
    !b.isEmpty && b.all (fun c => !isJsSpace c) &&
    !a.isEmpty && a.all (fun c => !isJsSpace c) && hasInnerDot a
  | _ => false

/-- Match of `^\d{2}\/\d{2}$` followed by `split('/')`/`parseInt`, the
parsing step shared by the expiry validators: the month and two-digit year
of an `MM/YY` string. -/
def parseMMYY (s : String) : Option (Nat × Nat) :=
  match s.data with
  | [m1, m2, sl, y1, y2] =>
    if m1.isDigit && m2.isDigit && sl == '/' && y1.isDigit && y2.isDigit then
      some (digitVal m1 * 10 + digitVal m2, digitVal y1 * 10 + digitVal y2)
    else none
  | _ => none

namespace contactValidators

/-- Translation of `validators.phone` in `setupContactForm` (`script.js`):
nonempty after trim, then the count of digit characters must be between
7 and 15.  No character-class restriction is applied. -/
def phone (s : String) : Option String :=
  if (jsTrim s).isEmpty then some "Please enter your phone number"
  else if (stripNonDigits s).length < 7 then some "Phone number must be at least 7 digits"
  else if 15 < (stripNonDigits s).length then some "Phone number cannot exceed 15 digits"
  else none

end contactValidators

namespace checkoutValidators

/-- Translation of `validators.name` in `setupCheckout` (`script.js`). -/
def name (s : String) : Option String :=
  if (jsTrim s).isEmpty then some "Please enter your full name"
  else if (jsTrim s).length < 2 then some "Name must be at least 2 characters"
  else if !(s.data.all isNameChar && !s.data.isEmpty) then
    some "Only letters, spaces, apostrophes, hyphens allowed"
  else none

/-- Translation of `validators.email` in `setupCheckout` (`script.js`). -/
def email (s : String) : Option String :=
  if (jsTrim s).isEmpty then some "Please enter your email"
  else if !emailMatch s then some "Enter a valid email"
  else none

/-- Translation of `validators.mobile` in `setupCheckout` (`script.js`):
nonempty after trim, 8 to 15 digit characters, and every character of the
raw string in the class `[\d\s+\-()]` (with the regex `+` also requiring a
nonempty string). -/
def mobile (s : String) : Option String :=
  if (jsTrim s).isEmpty then some "Please enter your mobile number"
  else if (stripNonDigits s).length < 8 || 15 < (stripNonDigits s).length then
    some "Mobile must be 8-15 digits"
  else if !(s.data.all isPhoneChar && !s.data.isEmpty) then some "Contains invalid characters"
  else none

/-- Translation of `validators.address` in `setupCheckout` (`script.js`). -/
def address (s : String) : Option String :=
  if (jsTrim s).isEmpty then some "Please enter your full address"
  else if (jsTrim s).length < 5 then some "Address looks too short"
  else none

/-- Translation of `validators.card` in `setupCheckout` (`script.js`):
`s.replace(/\D/g,'')` must leave exactly 16 digits.  All non-digit
characters are stripped, not only spaces. -/
def card (s : String) : Option String :=
  if (stripNonDigits s).length != 16 then some "Card number must be 16 digits"
  else none

/-- Translation of `validators.expiry` in `setupCheckout` (`script.js`).
`cy` and `cm` are `getFullYear()` and the 0-based `getMonth()` of the
current date.  The source compares `new Date(2000 + yy, mm)` with
`new Date(cy, cm + 1)`; both are first-of-month instants, so the order is
that of the month counts `(2000 + yy) * 12 + mm` and `cy * 12 + (cm + 1)`. -/
def expiry (cy cm : Nat) (s : String) : Option String :=
  match parseMMYY s with
  | none => some "Expiry must be MM/YY"
  | some (mm, yy) =>
    if mm < 1 || 12 < mm then some "Invalid month"
    else if (2000 + yy) * 12 + mm < cy * 12 + (cm + 1) then some "Card is expired"
    else none

/-- Translation of `validators.cvv` in `setupCheckout` (`script.js`):
the regex `^\d{3}$`. -/
def cvv (s : String) : Option String :=
  match s.data with
  | [a, b, c] => if a.isDigit && b.isDigit && c.isDigit then none else some "CVV must be 3 digits"
  | _ => some "CVV must be 3 digits"

/-- Translation of `validators.cardname` in `setupCheckout` (`script.js`). -/
def cardname (s : String) : Option String :=
  if (jsTrim s).isEmpty then some "Please enter the name on your card"
  else if (jsTrim s).length < 2 then some "Name on card looks too short"
  else if !(s.data.all isNameChar && !s.data.isEmpty) then
    some "Only letters, spaces, apostrophes, hyphens allowed"
  else none

end checkoutValidators

/-- The checkout form's field values in the plain-DOM implementation. -/
structure DomCheckoutFields where
  name : String
  email : String
  mobile : String
  address : String
  card : String
  expiry : String
  cvv : String
  cardname : String
deriving Repr, DecidableEq

/-- JavaScript `fields.every(field => validateField(field))` over the eight
checkout validators (`every` short-circuits, which cannot change the
conjunction's value). -/
def domFieldsValid (cy cm : Nat) (f : DomCheckoutFields) : Bool :=
  (checkoutValidators.name f.name).isNone && (checkoutValidators.email f.email).isNone &&
  (checkoutValidators.mobile f.mobile).isNone && (checkoutValidators.address f.address).isNone &&
  (checkoutValidators.card f.card).isNone && (checkoutValidators.expiry cy cm f.expiry).isNone &&
  (checkoutValidators.cvv f.cvv).isNone && (checkoutValidators.cardname f.cardname).isNone

/-- Outcome of a checkout form submission in the plain-DOM implementation. -/
inductive SubmitOutcome where
  | emptyCart
  | invalidFields
  | success
deriving Repr, DecidableEq

/-- Translation of the submit handler installed by `setupCheckout`
(`script.js`): reload the cart from storage, block with the empty-cart
message when it is empty (before any field is validated), otherwise block
on any invalid field, otherwise succeed, emptying the cart and removing the
storage key (`localStorage.removeItem('cart')`). -/
def checkoutSubmit (cy cm : Nat) (f : DomCheckoutFields) (st : AppState) :
    SubmitOutcome × AppState :=
  let st1 := loadCartFromStorage st
  if st1.cart.isEmpty then (SubmitOutcome.emptyCart, st1)
  else if domFieldsValid cy cm f then (SubmitOutcome.success, { cart := [], storage := none })
  else (SubmitOutcome.invalidFields, st1)

/-- Accumulation of the cart subtotal in `updateCheckoutTotal`
(`script.js`): `cart.forEach(item => { subtotal += item.price * item.quantity })`. -/
def checkoutSubtotal (c : List CartItem) : ℚ :=
  c.foldl (fun acc it => acc + it.price * (it.quantity : ℚ)) 0

/-- Translation of `updateCheckoutTotal` (`script.js`): reload the cart from
storage, accumulate the subtotal, and add the shipping cost (15 for express,
0 otherwise).  Returns the state after the reload and the displayed total;
the savings breakdown it also renders is display-only and not modeled. -/
def updateCheckoutTotal (express : Bool) (st : AppState) : AppState × ℚ :=
  let st1 := loadCartFromStorage st
  let subtotal := checkoutSubtotal st1.cart
  let shippingCost : ℚ := if express then 15 else 0
  (st1, subtotal + shippingCost)

namespace Vue

/-- The `CheckoutForm` component's `formData` fields (`checkout-app.js`).
`shippingMethod` is validated nowhere and omitted from the record the
validators see. -/
structure FormData where
  name : String
  email : String
  mobile : String
  address : String
  city : String
  state : String
  postcode : String
  cardNumber : String
  expiryDate : String
  cvv : String
  cardName : String
deriving Repr, DecidableEq

/-- Translation of `validateName` (`checkout-app.js`): only requires a
nonempty trimmed value. -/
def validateName (s : String) : Option String :=
  if (jsTrim s).isEmpty then some "Full name is required" else none

/-- Translation of `validateEmail` (`checkout-app.js`). -/
def validateEmail (s : String) : Option String :=
  if (jsTrim s).isEmpty then some "Email is required"
  else if !emailMatch s then some "Please enter a valid email address"
  else none

/-- Translation of `validateMobile` (`checkout-app.js`): nonempty after
trim, then the regex `^[\d\s+\-()]{10,15}$` — between 10 and 15 characters
in total, each from the allowed class.  The bound is on the character
count, not on the digit count. -/
def validateMobile (s : String) : Option String :=
  if (jsTrim s).isEmpty then some "Mobile number is required"
  else if !(s.data.all isPhoneChar && 10 ≤ s.data.length && s.data.length ≤ 15) then
    some "Please enter a valid mobile number"
  else none

/-- Translation of `validateAddress` (`checkout-app.js`). -/
def validateAddress (s : String) : Option String :=
  if (jsTrim s).isEmpty then some "Address is required" else none

/-- Translation of `validateCity` (`checkout-app.js`). -/
def validateCity (s : String) : Option String :=
  if (jsTrim s).isEmpty then some "City is required" else none

/-- Translation of `validateState` (`checkout-app.js`). -/
def validateState (s : String) : Option String :=
  if (jsTrim s).isEmpty then some "State is required" else none

/-- Translation of `validatePostcode` (`checkout-app.js`): the regex
`^\d{4}$`. -/
def validatePostcode (s : String) : Option String :=
  if (jsTrim s).isEmpty then some "Postcode is required"
  else
    match s.data with
    | [a, b, c, d] =>
      if a.isDigit && b.isDigit && c.isDigit && d.isDigit then none
      else some "Please enter a valid 4-digit postcode"
    | _ => some "Please enter a valid 4-digit postcode"

/-- Match of the regex `^\d{4}\s\d{4}\s\d{4}\s\d{4}$` used by
`validateCardNumber`: four 4-digit groups separated by single `\s`
characters. -/
def cardRegexMatch : List Char → Bool
  | [a1, a2, a3, a4, w1, b1, b2, b3, b4, w2, c1, c2, c3, c4, w3, d1, d2, d3, d4] =>
    a1.isDigit && a2.isDigit && a3.isDigit && a4.isDigit && isJsSpace w1 &&
    b1.isDigit && b2.isDigit && b3.isDigit && b4.isDigit && isJsSpace w2 &&
    c1.isDigit && c2.isDigit && c3.isDigit && c4.isDigit && isJsSpace w3 &&
    d1.isDigit && d2.isDigit && d3.isDigit && d4.isDigit
  | _ => false

/-- Translation of `validateCardNumber` (`checkout-app.js`): the value must
match `^\d{4}\s\d{4}\s\d{4}\s\d{4}$` exactly — only the spaced display
format is accepted. -/
def validateCardNumber (s : String) : Option String :=
  if (jsTrim s).isEmpty then some "Card number is required"
  else if !cardRegexMatch s.data then
    some "Please enter a valid card number (1234 5678 9012 3456)"
  else none

/-- Match of the regex `^(0[1-9]|1[0-2])\/\d{2}$` used by
`validateExpiryDate`. -/
def expiryRegexMatch : List Char → Bool
  | [m1, m2, sl, y1, y2] =>
    ((m1 == '0' && '1' ≤ m2 && m2 ≤ '9') || (m1 == '1' && '0' ≤ m2 && m2 ≤ '2')) &&
    sl == '/' && y1.isDigit && y2.isDigit
  | _ => false

/-- Translation of `validateExpiryDate` (`checkout-app.js`): format and
month range only; the current date is never consulted, so past dates are
accepted. -/
def validateExpiryDate (s : String) : Option String :=
  if (jsTrim s).isEmpty then some "Expiry date is required"
  else if !expiryRegexMatch s.data then some "Please enter a valid expiry date (MM/YY)"
  else none

/-- Translation of `validateCvv` (`checkout-app.js`): the regex `^\d{3,4}$`. -/
def validateCvv (s : String) : Option String :=
  if (jsTrim s).isEmpty then some "CVV is required"
  else
    match s.data with
    | [a, b, c] =>
      if a.isDigit && b.isDigit && c.isDigit then none else some "Please enter a valid CVV (3-4 digits)"
    | [a, b, c, d] =>
      if a.isDigit && b.isDigit && c.isDigit && d.isDigit then none
      else some "Please enter a valid CVV (3-4 digits)"
    | _ => some "Please enter a valid CVV (3-4 digits)"

/-- Translation of `validateCardName` (`checkout-app.js`). -/
def validateCardName (s : String) : Option String :=
  if (jsTrim s).isEmpty then some "Name on card is required" else none

/-- Translation of `validateForm` (`checkout-app.js`): every validator is
run (no short-circuit) and the form is valid when all eleven pass. -/
def validateForm (f : FormData) : Bool :=
  (validateName f.name).isNone && (validateEmail f.email).isNone &&
  (validateMobile f.mobile).isNone && (validateAddress f.address).isNone &&
  (validateCity f.city).isNone && (validateState f.state).isNone &&
  (validatePostcode f.postcode).isNone && (validateCardNumber f.cardNumber).isNone &&
  (validateExpiryDate f.expiryDate).isNone && (validateCvv f.cvv).isNone &&
  (validateCardName f.cardName).isNone

/-- The order record assembled by `handleSubmit` (`checkout-app.js`).  The
wall-clock ISO `timestamp` string is not modeled. -/
structure Order where
  orderNumber : String
  customerInfo : FormData
  items : List CartItem
  subtotal : ℚ
  shipping : ℚ
  total : ℚ

/-- JavaScript `'TO' + Date.now().toString().slice(-8)`: the last eight
characters of the decimal milliseconds timestamp, prefixed with `TO`. -/
def orderNumberOf (now : Nat) : String :=
  let s := toString now
  "TO" ++ s.drop (s.length - 8)

/-- Translation of `handleSubmit` (`checkout-app.js`): if `validateForm`
fails, nothing happens; otherwise (after the simulated delay) an order is
assembled from the props and emitted.  There is no cart-emptiness check on
this path: the order is placed whatever `cartItems` holds. -/
def handleSubmit (f : FormData) (cartItems : List CartItem) (cartTotal shippingCost : ℚ)
    (now : Nat) : Option Order :=
  if validateForm f then
    some { orderNumber := orderNumberOf now, customerInfo := f, items := cartItems,
           subtotal := cartTotal, shipping := shippingCost, total := cartTotal + shippingCost }
  else none

/-- Translation of `calculateCartTotal` (`checkout-app.js`):
`cartItems.reduce((total, item) => total + item.price * item.quantity, 0)`. -/
def calculateCartTotal (cartItems : List CartItem) : ℚ :=
  cartItems.foldl (fun total item => total + item.price * (item.quantity : ℚ)) 0

/-- The `CheckoutApp` parent component's reactive state together with the
localStorage `cart` key (`checkout-app.js`).  The separate `orderHistory`
key it also writes is not consulted by any cart operation and its
serialization is not modeled. -/
structure VueAppState where
  cartItems : List CartItem
  cartTotal : ℚ
  storage : Option JValue
  orderHistory : List Order

/-- Translation of `handleOrderPlaced` (`checkout-app.js`): append the order
to the history, empty the cart, zero the total, and remove the `cart`
storage key (`localStorage.removeItem('cart')` — the key is absent
afterwards). -/
def handleOrderPlaced (orderData : Order) (st : VueAppState) : VueAppState :=
  { st with orderHistory := st.orderHistory ++ [orderData],
            cartItems := [], cartTotal := 0, storage := none }

end Vue

namespace VueContact

/-- Translation of `validatePhone` in the contact-page Vue component
(`checkout-app.js` bundle): nonempty after trim, then the regex
`^[\d\s+\-()]{7,15}$` — 7 to 15 characters in total from the allowed
class; the bound is on the character count, not the digit count. -/
def validatePhone (s : String) : Option String :=
  if (jsTrim s).isEmpty then some "Phone number is required"
  else if !(s.data.all isPhoneChar && 7 ≤ s.data.length && s.data.length ≤ 15) then
    some "Please enter a valid phone number"
  else none

end VueContact

/-- Acceptance predicate transcribed from the specification words of the
expiry claim (for comparison with the implementations): the input has
format MM/YY with month between 1 and 12, and month/year `(MM, 2000+YY)` is
not strictly before the current month/year.  `cy` is the current year and
`cm` the 0-based month index the code obtains from `getMonth()`, so the
current calendar month is `cm + 1`. -/
def specExpiryAccept (cy cm : Nat) (s : String) : Bool :=
  match parseMMYY s with
  | none => false
  | some (mm, yy) =>
    decide (1 ≤ mm) && decide (mm ≤ 12) &&
    !(decide (2000 + yy < cy) || (decide (2000 + yy = cy) && decide (mm < cm + 1)))

/-- Acceptance predicate transcribed from the specification words of the
phone claim (for comparison with the implementations): nonempty, every
character from the class digits/space/plus/hyphen/parentheses, and the
digit count after stripping non-digits between `low` and 15. -/
def specPhoneAccept (low : Nat) (s : String) : Bool :=
  !s.data.isEmpty && s.data.all isPhoneChar &&
  decide (low ≤ (stripNonDigits s).length) && decide ((stripNonDigits s).length ≤ 15)

section CartLemmas

lemma updateFirst_map_name (c : List CartItem) (n : String) (f : CartItem → CartItem)
    (hf : ∀ x, (f x).name = x.name) :
    (updateFirst c n f).map (fun it => it.name) = c.map (fun it => it.name) := by
  induction c with
  | nil => rfl
  | cons it rest ih =>
    cases h : (it.name == n) with
    | true => simp [updateFirst, h, hf]
    | false => simp [updateFirst, h, ih]

lemma findItem_cons_pos (it : CartItem) (rest : List CartItem) (n : String)
    (h : (it.name == n) = true) : findItem (it :: rest) n = some it := by
  simp [findItem, List.find?_cons, h]

lemma findItem_cons_neg (it : CartItem) (rest : List CartItem) (n : String)
    (h : (it.name == n) = false) : findItem (it :: rest) n = findItem rest n := by
  simp [findItem, List.find?_cons, h]

lemma mem_updateFirst_of_find (c : List CartItem) (n : String) (f : CartItem → CartItem)
    (it : CartItem) (hfind : findItem c n = some it) :
    ∀ x ∈ updateFirst c n f, x ∈ c ∨ x = f it := by
  induction c with
  | nil => simp [updateFirst]
  | cons y rest ih =>
    intro x hx
    cases h : (y.name == n) with
    | true =>
      rw [findItem_cons_pos y rest n h] at hfind
      have hy : y = it := Option.some.inj hfind
      rw [updateFirst, if_pos h] at hx
      rcases List.mem_cons.mp hx with hfy | hrest
      · right; rw [hfy, hy]
      · left; exact List.mem_cons_of_mem _ hrest
    | false =>
      rw [findItem_cons_neg y rest n h] at hfind
      rw [updateFirst, if_neg (by simp [h])] at hx
      rcases List.mem_cons.mp hx with hfy | hrest
      · left; rw [hfy]; exact List.mem_cons_self _ _
      · rcases ih hfind x hrest with hmem | heq
        · left; exact List.mem_cons_of_mem _ hmem
        · right; exact heq

lemma findItem_mem (c : List CartItem) (n : String) (it : CartItem)
    (h : findItem c n = some it) : it ∈ c :=
  List.mem_of_find?_eq_some h

lemma findItem_none_name_ne (c : List CartItem) (n : String)
    (h : findItem c n = none) : ∀ it ∈ c, it.name ≠ n := by
  intro it hit heq
  unfold findItem at h
  rw [List.find?_eq_none] at h
  exact h it hit (by simp [heq])

lemma cartInv_updateFirst (c : List CartItem) (n : String) (f : CartItem → CartItem)
    (it : CartItem) (hfind : findItem c n = some it)
    (hf : ∀ x, (f x).name = x.name)
    (hq : 1 ≤ (f it).quantity)
    (h : cartInv c) : cartInv (updateFirst c n f) := by
  obtain ⟨hnd, hqs⟩ := h
  refine ⟨?_, ?_⟩
  · rw [updateFirst_map_name c n f hf]; exact hnd
  · intro x hx
    rcases mem_updateFirst_of_find c n f it hfind x hx with hmem | hfx
    · exact hqs x hmem
    · rw [hfx]; exact hq

lemma cartInv_append_new (c : List CartItem) (x : CartItem)
    (hq : 1 ≤ x.quantity)
    (hfresh : ∀ it ∈ c, it.name ≠ x.name)
    (h : cartInv c) : cartInv (c ++ [x]) := by
  obtain ⟨hnd, hqs⟩ := h
  refine ⟨?_, ?_⟩
  · rw [List.map_append]
    simp only [List.map_cons, List.map_nil]
    rw [List.nodup_append]
    refine ⟨hnd, List.nodup_singleton _, ?_⟩
    intro a ha hb
    simp only [List.mem_singleton] at hb
    rcases List.mem_map.mp ha with ⟨y, hy, hyn⟩
    exact hfresh y hy (hyn.trans hb)
  · intro it hit
    rcases List.mem_append.mp hit with h1 | h2
    · exact hqs it h1
    · rw [List.mem_singleton.mp h2]; exact hq

lemma cartInv_filter (c : List CartItem) (p : CartItem → Bool)
    (h : cartInv c) : cartInv (c.filter p) := by
  obtain ⟨hnd, hqs⟩ := h
  refine ⟨hnd.sublist ((List.filter_sublist c).map _), ?_⟩
  intro it hit
  exact hqs it (List.mem_of_mem_filter hit)

lemma cartInv_step (st : AppState) (op : CartOp) (h : cartInv st.cart) :
    cartInv (applyOp st op).cart := by
  cases op with
  | add ps d n =>
    show cartInv (addToCart ps d n st).cart
    unfold addToCart
    cases hp : ps.find? (fun p => p.name == n) with
    | none => exact h
    | some product =>
      cases hfind : findItem st.cart n with
      | some it =>
        simp only [hfind]
        exact cartInv_updateFirst st.cart n _ it hfind (fun x => rfl)
          (by have := h.2 it (findItem_mem _ _ _ hfind); simp; omega) h
      | none =>
        simp only [hfind]
        refine cartInv_append_new st.cart _ (by simp) ?_ h
        exact findItem_none_name_ne st.cart n hfind
  | increase n =>
    show cartInv (increaseQuantity n st).cart
    unfold increaseQuantity
    cases hfind : findItem st.cart n with
    | some it =>
      exact cartInv_updateFirst st.cart n _ it hfind (fun x => rfl)
        (by have := h.2 it (findItem_mem _ _ _ hfind); simp; omega) h
    | none => exact h
  | decrease n =>
    show cartInv (decreaseQuantity n st).cart
    unfold decreaseQuantity
    split
    next it heq =>
      by_cases hgt : (1 : ℤ) < it.quantity
      · rw [if_pos hgt]
        exact cartInv_updateFirst st.cart n _ it heq (fun x => rfl) (by simp; omega) h
      · rw [if_neg hgt]
        split
        · exact cartInv_filter st.cart _ h
        · exact h
    next heq => exact h
  | remove n =>
    show cartInv (removeFromCart n st).cart
    exact cartInv_filter st.cart _ h
  | update n q =>
    show cartInv (updateCartQuantity n q st).cart
    unfold updateCartQuantity
    by_cases hq : q ≤ 0
    · rw [if_pos hq]; exact cartInv_filter st.cart _ h
    · rw [if_neg hq]
      cases hfind : findItem st.cart n with
      | some it =>
        exact cartInv_updateFirst st.cart n _ it hfind (fun x => rfl) (by simp; omega) h
      | none => exact h

lemma cartInv_foldl (ops : List CartOp) (st : AppState) (h : cartInv st.cart) :
    cartInv (ops.foldl applyOp st).cart := by
  induction ops generalizing st with
  | nil => exact h
  | cons op rest ih => exact ih _ (cartInv_step st op h)

end CartLemmas

/-- C1: for every sequence of cart operations (add, increment, decrement,
remove, updateQuantity) applied starting from the empty cart, the resulting
cart never contains two line items with the same product name, and every
line item present has quantity at least 1. -/
theorem C1_cart_invariant (ops : List CartOp) :
    ((runOps ops).cart.map (fun it => it.name)).Nodup ∧
    ∀ it ∈ (runOps ops).cart, 1 ≤ it.quantity := by
  have hinit : cartInv ([] : List CartItem) := ⟨List.nodup_nil, by intro it hit; cases hit⟩
  exact cartInv_foldl ops { cart := [], storage := none } hinit

section DecompositionLemmas

lemma findItem_append_cons (pre post : List CartItem) (it : CartItem) (n : String)
    (hpre : ∀ x ∈ pre, x.name ≠ n) (hit : it.name = n) :
    findItem (pre ++ it :: post) n = some it := by
  induction pre with
  | nil => exact findItem_cons_pos it post n (by simp [hit])
  | cons y rest ih =>
    have hy : (y.name == n) = false := by
      rw [beq_eq_false_iff_ne]
      exact hpre y (List.mem_cons_self _ _)
    rw [List.cons_append, findItem_cons_neg _ _ _ hy]
    exact ih (fun x hx => hpre x (List.mem_cons_of_mem _ hx))

lemma updateFirst_append_cons (pre post : List CartItem) (it : CartItem) (n : String)
    (f : CartItem → CartItem)
    (hpre : ∀ x ∈ pre, x.name ≠ n) (hit : it.name = n) :
    updateFirst (pre ++ it :: post) n f = pre ++ f it :: post := by
  induction pre with
  | nil => simp [updateFirst, hit]
  | cons y rest ih =>
    have hy : (y.name == n) = false := by
      rw [beq_eq_false_iff_ne]
      exact hpre y (List.mem_cons_self _ _)
    rw [List.cons_append, updateFirst, if_neg (by simp [hy]), List.cons_append,
      ih (fun x hx => hpre x (List.mem_cons_of_mem _ hx))]

end DecompositionLemmas

/-- C7: decrementing a line whose quantity is 1 is the same operation as
removing it; `updateCartQuantity` with a non-positive quantity is the same
operation as removing; and with a quantity of at least 1 it rewrites exactly
the first matching line's quantity, leaving every other line unchanged. -/
theorem C7_decrement_update_equivalences :
    (∀ (st : AppState) (n : String) (it : CartItem),
      findItem st.cart n = some it → it.quantity = 1 →
      decreaseQuantity n st = removeFromCart n st) ∧
    (∀ (st : AppState) (n : String) (q : ℤ), q ≤ 0 →
      updateCartQuantity n q st = removeFromCart n st) ∧
    (∀ (st : AppState) (n : String) (q : ℤ) (it : CartItem) (pre post : List CartItem),
      1 ≤ q → st.cart = pre ++ it :: post → (∀ x ∈ pre, x.name ≠ n) → it.name = n →
      (updateCartQuantity n q st).cart = pre ++ { it with quantity := q } :: post) := by
  refine ⟨?_, ?_, ?_⟩
  · intro st n it hfind hq1
    simp [decreaseQuantity, hfind, hq1]
  · intro st n q hq
    simp [updateCartQuantity, hq]
  · intro st n q it pre post hq hc hpre hit
    have hfind : findItem st.cart n = some it := by
      rw [hc]; exact findItem_append_cons pre post it n hpre hit
    simp only [updateCartQuantity, if_neg (by omega : ¬ q ≤ 0), hfind]
    rw [hc, updateFirst_append_cons pre post it n _ hpre hit]

/-- Witness for C7 at the one-line cart holding product A with quantity 1
(parts one and two) and quantity update to 3 (part three). -/
theorem C7_decrement_update_equivalences_witness :
    decreaseQuantity "A" ⟨[⟨"A", 5, 1, 5, false⟩], none⟩
      = removeFromCart "A" ⟨[⟨"A", 5, 1, 5, false⟩], none⟩ ∧
    updateCartQuantity "A" 0 ⟨[⟨"A", 5, 1, 5, false⟩], none⟩
      = removeFromCart "A" ⟨[⟨"A", 5, 1, 5, false⟩], none⟩ ∧
    (updateCartQuantity "A" 3 ⟨[⟨"A", 5, 1, 5, false⟩], none⟩).cart = [⟨"A", 5, 3, 5, false⟩] := by
  refine ⟨?_, ?_, ?_⟩
  · exact C7_decrement_update_equivalences.1 ⟨[⟨"A", 5, 1, 5, false⟩], none⟩ "A"
      ⟨"A", 5, 1, 5, false⟩ rfl rfl
  · exact C7_decrement_update_equivalences.2.1 ⟨[⟨"A", 5, 1, 5, false⟩], none⟩ "A" 0 le_rfl
  · exact C7_decrement_update_equivalences.2.2 ⟨[⟨"A", 5, 1, 5, false⟩], none⟩ "A" 3
      ⟨"A", 5, 1, 5, false⟩ [] [] (by norm_num) rfl (by simp) rfl

/-- C10: adding a product whose line already exists increments only that
line's quantity by 1 — its price, originalPrice and isDiscounted snapshot
fields and every other line are unchanged — for every supplied discounted
price. -/
theorem C10_add_existing_only_increments :
    ∀ (products : List Product) (discountedPrice : Option ℚ) (n : String) (st : AppState)
      (product : Product) (it : CartItem) (pre post : List CartItem),
      products.find? (fun p => p.name == n) = some product →
      st.cart = pre ++ it :: post → (∀ x ∈ pre, x.name ≠ n) → it.name = n →
      (addToCart products discountedPrice n st).cart
        = pre ++ { it with quantity := it.quantity + 1 } :: post := by
  intro ps d n st product it pre post hp hc hpre hit
  have hfind : findItem st.cart n = some it := by
    rw [hc]; exact findItem_append_cons pre post it n hpre hit
  simp only [addToCart, hp, hfind]
  rw [hc, updateFirst_append_cons pre post it n _ hpre hit]

/-- Witness for C10: product A was snapshotted at the discounted price 80;
a later add carrying a different discount 50 only bumps the quantity. -/
theorem C10_add_existing_only_increments_witness :
    (addToCart [⟨"A", 100⟩] (some 50) "A"
      ⟨[⟨"A", 80, 2, 100, true⟩, ⟨"B", 15, 1, 15, false⟩], none⟩).cart
      = [⟨"A", 80, 3, 100, true⟩, ⟨"B", 15, 1, 15, false⟩] :=
  C10_add_existing_only_increments [⟨"A", 100⟩] (some 50) "A"
    ⟨[⟨"A", 80, 2, 100, true⟩, ⟨"B", 15, 1, 15, false⟩], none⟩ ⟨"A", 100⟩
    ⟨"A", 80, 2, 100, true⟩ [] [⟨"B", 15, 1, 15, false⟩] rfl rfl (by simp) rfl

section RoundTrip

lemma decodeItem_encodeItem (it : CartItem) : decodeItem (encodeItem it) = some it := by
  simp [encodeItem, decodeItem, Rat.den_intCast, Rat.num_intCast]

lemma decodeItems_encode (c : List CartItem) : decodeItems (c.map encodeItem) = some c := by
  induction c with
  | nil => rfl
  | cons it rest ih => simp [decodeItems, decodeItem_encodeItem, ih]

lemma decodeCartJson_encodeCart (c : List CartItem) :
    decodeCartJson (encodeCart c) = some c := by
  simp [encodeCart, decodeCartJson, decodeItems_encode]

lemma loadCartFromStorage_synced (st : AppState) (h : st.storage = some (encodeCart st.cart)) :
    loadCartFromStorage st = st := by
  cases st with
  | mk cart storage =>
    simp only at h
    simp [loadCartFromStorage, h, decodeCartJson_encodeCart]

end RoundTrip

/-- C6: for a product present in the catalog, `addToCart` followed
immediately by `loadCartFromStorage` (a simulated reload) reproduces
exactly the line items the in-memory cart held after the add: the
round-trip through the storage serialization preserves the items and their
order. -/
theorem C6_add_load_roundtrip :
    ∀ (products : List Product) (discountedPrice : Option ℚ) (n : String) (st : AppState)
      (product : Product),
      products.find? (fun p => p.name == n) = some product →
      (loadCartFromStorage (addToCart products discountedPrice n st)).cart
        = (addToCart products discountedPrice n st).cart := by
  intro ps d n st product hp
  simp only [addToCart, hp]
  simp [loadCartFromStorage, saveCartToStorage, decodeCartJson_encodeCart]

/-- Witness for C6: adding product A to a fresh state and reloading. -/
theorem C6_add_load_roundtrip_witness :
    (loadCartFromStorage (addToCart [⟨"A", 10⟩] none "A" ⟨[], none⟩)).cart
      = (addToCart [⟨"A", 10⟩] none "A" ⟨[], none⟩).cart :=
  C6_add_load_roundtrip [⟨"A", 10⟩] none "A" ⟨[], none⟩ ⟨"A", 10⟩ rfl

section TotalLemmas

lemma foldl_price_qty (l : List CartItem) (a : ℚ) :
    l.foldl (fun acc it => acc + it.price * (it.quantity : ℚ)) a
      = a + (l.map (fun it => it.price * (it.quantity : ℚ))).sum := by
  induction l generalizing a with
  | nil => simp
  | cons it rest ih => simp [ih, add_assoc]

end TotalLemmas

/-- C5: both total computations — the Vue `calculateCartTotal` reduce and
the plain-DOM `updateCheckoutTotal` accumulation — equal the sum of
price × quantity over the line items; on a synced state
`updateCheckoutTotal` leaves the state unchanged (its only state action,
the reload from storage, is the identity there); and the concrete cart
[{price 100, qty 2}, {price 15, qty 1}] totals 215. -/
theorem C5_total_is_sum :
    (∀ items : List CartItem,
      Vue.calculateCartTotal items
        = (items.map (fun it => it.price * (it.quantity : ℚ))).sum) ∧
    (∀ c : List CartItem,
      checkoutSubtotal c = (c.map (fun it => it.price * (it.quantity : ℚ))).sum) ∧
    (∀ st : AppState, st.storage = some (encodeCart st.cart) →
      updateCheckoutTotal false st
        = (st, (st.cart.map (fun it => it.price * (it.quantity : ℚ))).sum)) ∧
    Vue.calculateCartTotal [⟨"Featured", 100, 2, 125, true⟩, ⟨"Regular", 15, 1, 15, false⟩]
      = 215 := by
  refine ⟨?_, ?_, ?_, ?_⟩
  · intro items
    simpa using foldl_price_qty items 0
  · intro c
    simpa using foldl_price_qty c 0
  · intro st h
    simp [updateCheckoutTotal, loadCartFromStorage_synced st h, checkoutSubtotal,
      foldl_price_qty]
  · norm_num [Vue.calculateCartTotal, List.foldl_cons, List.foldl_nil]

/-- Witness for C5's synced-state conjunct at a concrete one-line cart. -/
theorem C5_total_is_sum_witness :
    updateCheckoutTotal false
        ⟨[⟨"A", 100, 2, 100, false⟩], some (encodeCart [⟨"A", 100, 2, 100, false⟩])⟩
      = (⟨[⟨"A", 100, 2, 100, false⟩], some (encodeCart [⟨"A", 100, 2, 100, false⟩])⟩, 200) := by
  have h := C5_total_is_sum.2.2.1
    ⟨[⟨"A", 100, 2, 100, false⟩], some (encodeCart [⟨"A", 100, 2, 100, false⟩])⟩ rfl
  rw [h]
  norm_num

/-- C8 counterexample: the claim says the storage key is absent after
`clearCart`; in fact `clearCart` saves the empty-array encoding under the
key, so on a concrete one-line state the key is still present. -/
theorem C8_counterexample_key_still_present :
    (clearCart ⟨[⟨"Mouse", 15, 1, 15, false⟩],
        some (encodeCart [⟨"Mouse", 15, 1, 15, false⟩])⟩).storage ≠ none := by
  simp [clearCart, saveCartToStorage]

/-- C8 amended: `clearCart` empties the in-memory cart and overwrites the
storage key with the empty-array encoding — the key remains present.  The
storage key is deleted (absent afterwards) by the Vue order-placed handler,
which also empties the cart. -/
theorem C8_clear_writes_empty_array :
    (∀ st : AppState,
      (clearCart st).cart = [] ∧ (clearCart st).storage = some (JValue.arr [])) ∧
    (∀ (orderData : Vue.Order) (vst : Vue.VueAppState),
      (Vue.handleOrderPlaced orderData vst).cartItems = [] ∧
      (Vue.handleOrderPlaced orderData vst).storage = none) := by
  constructor
  · intro st
    exact ⟨rfl, by simp [clearCart, saveCartToStorage, encodeCart]⟩
  · intro orderData vst
    exact ⟨rfl, rfl⟩



section CharLemmas

lemma char_le_iff_toNat (a b : Char) : (a ≤ b) ↔ a.toNat ≤ b.toNat := Iff.rfl

lemma isDigit_iff_toNat (c : Char) : c.isDigit = true ↔ 48 ≤ c.toNat ∧ c.toNat ≤ 57 := by
  simp [Char.isDigit]
  constructor
  · intro h; exact ⟨h.1, h.2⟩
  · intro h; exact ⟨h.1, h.2⟩

lemma char_eq_of_toNat (c : Char) (n : Nat) (h : c.toNat = n) : c = Char.ofNat n := by
  rw [← h, Char.ofNat_toNat]

lemma isJsSpace_not_digit (c : Char) (h : isJsSpace c = true) : c.isDigit = false := by
  simp [isJsSpace] at h
  casesm* _ ∨ _
  all_goals subst_vars
  all_goals rfl

lemma jsTrim_nil (s : String) (h : s.data = []) : jsTrim s = [] := by
  simp [jsTrim, h]

lemma jsTrim_empty_false_data_ne (s : String) (h : (jsTrim s).isEmpty = false) :
    s.data.isEmpty = false := by
  cases hd : s.data with
  | nil =>
    exact absurd (show (jsTrim s).isEmpty = true by rw [jsTrim_nil s hd]; rfl) (by simp [h])
  | cons a l => rfl

lemma iteSomeEqNone (p : Prop) [Decidable p] (e : String) (rest : Option String) :
    (if p then some e else rest) = none ↔ ¬p ∧ rest = none := by
  by_cases h : p <;> simp [h]

lemma iteSomeNoneEqNone (p : Prop) [Decidable p] (e : String) :
    (if p then some e else none : Option String) = none ↔ ¬p := by
  by_cases h : p <;> simp [h]

lemma iteBoolSomeEqNone (b : Bool) (e : String) (rest : Option String) :
    (if b = true then some e else rest) = none ↔ b = false ∧ rest = none := by
  cases b <;> simp

lemma iteBoolSomeNoneEqNone (b : Bool) (e : String) :
    (if b = true then some e else none : Option String) = none ↔ b = false := by
  cases b <;> simp

end CharLemmas

/-- C9 counterexample: the claim requires the contact phone validator to
restrict characters to digits, spaces and `+-()`; the plain-DOM contact
validator accepts `"aa1234567"` (7 digits after stripping), which contains
letters and is rejected by the claim's acceptance predicate. -/
theorem C9_counterexample_contact_phone_accepts_letters :
    contactValidators.phone "aa1234567" = none ∧ specPhoneAccept 7 "aa1234567" = false := by
  constructor <;> decide

/-- C9 amended: the plain-DOM contact phone validator accepts iff the value
is nonempty after trim and its digit count is 7–15 — with no character
restriction at all; the plain-DOM checkout mobile validator accepts iff
nonempty after trim, digit count 8–15, and every character in the allowed
class; the Vue checkout mobile and contact phone validators restrict
characters but bound the total character count (10–15 resp. 7–15), not the
digit count. -/
theorem C9_phone_validators :
    (∀ s, contactValidators.phone s = none ↔
      ((jsTrim s).isEmpty = false ∧ 7 ≤ (stripNonDigits s).length ∧
        (stripNonDigits s).length ≤ 15)) ∧
    (∀ s, checkoutValidators.mobile s = none ↔
      ((jsTrim s).isEmpty = false ∧ 8 ≤ (stripNonDigits s).length ∧
        (stripNonDigits s).length ≤ 15 ∧ s.data.all isPhoneChar = true)) ∧
    (∀ s, Vue.validateMobile s = none ↔
      ((jsTrim s).isEmpty = false ∧ s.data.all isPhoneChar = true ∧
        10 ≤ s.data.length ∧ s.data.length ≤ 15)) ∧
    (∀ s, VueContact.validatePhone s = none ↔
      ((jsTrim s).isEmpty = false ∧ s.data.all isPhoneChar = true ∧
        7 ≤ s.data.length ∧ s.data.length ≤ 15)) := by
  refine ⟨?_, ?_, ?_, ?_⟩
  · intro s
    unfold contactValidators.phone
    rw [iteBoolSomeEqNone, iteSomeEqNone, iteSomeNoneEqNone]
    exact and_congr Iff.rfl (by omega)
  · intro s
    unfold checkoutValidators.mobile
    rw [iteBoolSomeEqNone, iteBoolSomeEqNone, iteBoolSomeNoneEqNone]
    constructor
    · rintro ⟨hA, hB, hC⟩
      simp only [Bool.or_eq_false_iff, decide_eq_false_iff_not] at hB
      simp only [Bool.not_eq_false', Bool.and_eq_true] at hC
      exact ⟨hA, by omega, by omega, hC.1⟩
    · rintro ⟨hA, h8, h15, hall⟩
      refine ⟨hA, ?_, ?_⟩
      · simp only [Bool.or_eq_false_iff, decide_eq_false_iff_not]
        exact ⟨by omega, by omega⟩
      · have hne := jsTrim_empty_false_data_ne s hA
        simp only [Bool.not_eq_false', Bool.and_eq_true]
        exact ⟨hall, by simp [hne]⟩
  · intro s
    unfold Vue.validateMobile
    rw [iteBoolSomeEqNone, iteBoolSomeNoneEqNone]
    constructor
    · rintro ⟨hA, hC⟩
      simp only [Bool.not_eq_false', Bool.and_eq_true, decide_eq_true_eq] at hC
      exact ⟨hA, hC.1.1, hC.1.2, hC.2⟩
    · rintro ⟨hA, hall, h10, h15⟩
      refine ⟨hA, ?_⟩
      simp only [Bool.not_eq_false', Bool.and_eq_true, decide_eq_true_eq]
      exact ⟨⟨hall, h10⟩, h15⟩
  · intro s
    unfold VueContact.validatePhone
    rw [iteBoolSomeEqNone, iteBoolSomeNoneEqNone]
    constructor
    · rintro ⟨hA, hC⟩
      simp only [Bool.not_eq_false', Bool.and_eq_true, decide_eq_true_eq] at hC
      exact ⟨hA, hC.1.1, hC.1.2, hC.2⟩
    · rintro ⟨hA, hall, h7, h15⟩
      refine ⟨hA, ?_⟩
      simp only [Bool.not_eq_false', Bool.and_eq_true, decide_eq_true_eq]
      exact ⟨⟨hall, h7⟩, h15⟩

lemma cardRegexMatch_digits (l : List Char) (h : Vue.cardRegexMatch l = true) :
    (l.filter Char.isDigit).length = 16 := by
  unfold Vue.cardRegexMatch at h
  split at h
  next a1 a2 a3 a4 w1 b1 b2 b3 b4 w2 c1 c2 c3 c4 w3 d1 d2 d3 d4 =>
    simp only [Bool.and_eq_true] at h
    obtain ⟨h, h19⟩ := h
    obtain ⟨h, h18⟩ := h
    obtain ⟨h, h17⟩ := h
    obtain ⟨h, h16⟩ := h
    obtain ⟨h, h15⟩ := h
    obtain ⟨h, h14⟩ := h
    obtain ⟨h, h13⟩ := h
    obtain ⟨h, h12⟩ := h
    obtain ⟨h, h11⟩ := h
    obtain ⟨h, h10⟩ := h
    obtain ⟨h, h9⟩ := h
    obtain ⟨h, h8⟩ := h
    obtain ⟨h, h7⟩ := h
    obtain ⟨h, h6⟩ := h
    obtain ⟨h, h5⟩ := h
    obtain ⟨h, h4⟩ := h
    obtain ⟨h, h3⟩ := h
    obtain ⟨h, h2⟩ := h
    simp [List.filter_cons, h, h2, h3, h4, h6, h7, h8, h9, h11, h12, h13, h14, h16, h17, h18,
      h19, isJsSpace_not_digit _ h5, isJsSpace_not_digit _ h10, isJsSpace_not_digit _ h15]
  next => exact absurd h (by simp)

/-- C3 counterexample: the claim says the card validator accepts the
compact 16-digit form `"4111111111111111"` in both implementations; the
Vue `validateCardNumber` rejects it (its regex demands the spaced 4-4-4-4
display format). -/
theorem C3_counterexample_vue_rejects_compact :
    Vue.validateCardNumber "4111111111111111"
      = some "Please enter a valid card number (1234 5678 9012 3456)" := by
  decide

/-- C3 amended: the plain-DOM card validator accepts exactly the strings
whose digit characters number exactly 16 — it strips all non-digits, not
only spaces, so it accepts the compact, the spaced and e.g. a
hyphen-separated form alike; the Vue validator accepts exactly the
whitespace-grouped 4-4-4-4 format, hence accepts the spaced form but
rejects the compact one; every string either validator accepts has exactly
16 digit characters, so 15- and 17-digit inputs are always rejected. -/
theorem C3_card_validators :
    (∀ s, checkoutValidators.card s = none ↔ (stripNonDigits s).length = 16) ∧
    Vue.validateCardNumber "4111 1111 1111 1111" = none ∧
    checkoutValidators.card "4111111111111111" = none ∧
    checkoutValidators.card "4111 1111 1111 1111" = none ∧
    checkoutValidators.card "4111-1111-1111-1111" = none ∧
    (∀ s, Vue.validateCardNumber s = none → (stripNonDigits s).length = 16) := by
  refine ⟨?_, by decide, by decide, by decide, by decide, ?_⟩
  · intro s
    unfold checkoutValidators.card
    rw [iteBoolSomeNoneEqNone, bne_eq_false_iff_eq]
  · intro s hs
    unfold Vue.validateCardNumber at hs
    rw [iteBoolSomeEqNone, iteBoolSomeNoneEqNone] at hs
    obtain ⟨hA, hC⟩ := hs
    rw [Bool.not_eq_false'] at hC
    simpa [stripNonDigits] using cardRegexMatch_digits s.data hC

/-- Witness for C3's final conjunct at the spaced card number. -/
theorem C3_card_validators_witness :
    Vue.validateCardNumber "4111 1111 1111 1111" = none ∧
    (stripNonDigits "4111 1111 1111 1111").length = 16 :=
  ⟨C3_card_validators.2.1, C3_card_validators.2.2.2.2.2 "4111 1111 1111 1111"
    C3_card_validators.2.1⟩

section ExpiryLemmas

lemma char_digit_between (c lo hi : Char)
    (h1 : decide (lo ≤ c) = true) (h2 : decide (c ≤ hi) = true) :
    lo.toNat ≤ c.toNat ∧ c.toNat ≤ hi.toNat := by
  rw [decide_eq_true_eq] at h1 h2
  exact ⟨h1, h2⟩

lemma char_le_decide (lo c : Char) (h : lo.toNat ≤ c.toNat) : decide (lo ≤ c) = true := by
  rw [decide_eq_true_eq]
  exact h

lemma char_ge_decide (c hi : Char) (h : c.toNat ≤ hi.toNat) : decide (c ≤ hi) = true := by
  rw [decide_eq_true_eq]
  exact h

lemma isJsSpace_false_of_digit (c : Char) (h : c.isDigit = true) : isJsSpace c = false := by
  cases hsp : isJsSpace c with
  | false => rfl
  | true => rw [isJsSpace_not_digit c hsp] at h; exact absurd h (by simp)

lemma expiryRegexMatch_parse (s : String) (h : Vue.expiryRegexMatch s.data = true) :
    ∃ mm yy, parseMMYY s = some (mm, yy) ∧ 1 ≤ mm ∧ mm ≤ 12 := by
  unfold Vue.expiryRegexMatch at h
  split at h
  next m1 m2 sl y1 y2 heq =>
    simp only [Bool.and_eq_true] at h
    obtain ⟨⟨⟨hor, hsl⟩, hy1⟩, hy2⟩ := h
    rw [Bool.or_eq_true] at hor
    have h48 : Char.toNat '0' = 48 := rfl
    have h49 : Char.toNat '1' = 49 := rfl
    have h50 : Char.toNat '2' = 50 := rfl
    have h57 : Char.toNat '9' = 57 := rfl
    rcases hor with hx | hy
    · simp only [Bool.and_eq_true] at hx
      obtain ⟨⟨hm1, hge⟩, hle⟩ := hx
      have hm1eq : m1 = '0' := by rwa [beq_iff_eq] at hm1
      subst hm1eq
      obtain ⟨hlo, hhi⟩ := char_digit_between m2 '1' '9' hge hle
      have hm2d : m2.isDigit = true := (isDigit_iff_toNat m2).mpr ⟨by omega, by omega⟩
      have h0d : Char.isDigit '0' = true := rfl
      refine ⟨digitVal '0' * 10 + digitVal m2, digitVal y1 * 10 + digitVal y2, ?_, ?_, ?_⟩
      · unfold parseMMYY
        rw [heq]
        show (if (Char.isDigit '0' && m2.isDigit && sl == '/' && y1.isDigit && y2.isDigit) = true
            then some (digitVal '0' * 10 + digitVal m2, digitVal y1 * 10 + digitVal y2)
            else none)
          = some (digitVal '0' * 10 + digitVal m2, digitVal y1 * 10 + digitVal y2)
        rw [if_pos (by simp [h0d, hm2d, hsl, hy1, hy2])]
      · have hd0 : digitVal '0' = 0 := rfl
        have hd2 : digitVal m2 = m2.toNat - 48 := rfl
        omega
      · have hd0 : digitVal '0' = 0 := rfl
        have hd2 : digitVal m2 = m2.toNat - 48 := rfl
        omega
    · simp only [Bool.and_eq_true] at hy
      obtain ⟨⟨hm1, hge⟩, hle⟩ := hy
      have hm1eq : m1 = '1' := by rwa [beq_iff_eq] at hm1
      subst hm1eq
      obtain ⟨hlo, hhi⟩ := char_digit_between m2 '0' '2' hge hle
      have hm2d : m2.isDigit = true := (isDigit_iff_toNat m2).mpr ⟨by omega, by omega⟩
      have h1d : Char.isDigit '1' = true := rfl
      refine ⟨digitVal '1' * 10 + digitVal m2, digitVal y1 * 10 + digitVal y2, ?_, ?_, ?_⟩
      · unfold parseMMYY
        rw [heq]
        show (if (Char.isDigit '1' && m2.isDigit && sl == '/' && y1.isDigit && y2.isDigit) = true
            then some (digitVal '1' * 10 + digitVal m2, digitVal y1 * 10 + digitVal y2)
            else none)
          = some (digitVal '1' * 10 + digitVal m2, digitVal y1 * 10 + digitVal y2)
        rw [if_pos (by simp [h1d, hm2d, hsl, hy1, hy2])]
      · have hd1 : digitVal '1' = 1 := rfl
        have hd2 : digitVal m2 = m2.toNat - 48 := rfl
        omega
      · have hd1 : digitVal '1' = 1 := rfl
        have hd2 : digitVal m2 = m2.toNat - 48 := rfl
        omega
  next => exact absurd h (by simp)

lemma parse_vueExpiry_accept (s : String) (mm yy : Nat)
    (hp : parseMMYY s = some (mm, yy)) (h1 : 1 ≤ mm) (h2 : mm ≤ 12) :
    Vue.validateExpiryDate s = none := by
  unfold parseMMYY at hp
  split at hp
  next m1 m2 sl y1 y2 heq =>
    split at hp
    next hguard =>
      have hmm : digitVal m1 * 10 + digitVal m2 = mm := by
        have := Option.some.inj hp
        exact congrArg Prod.fst this
      simp only [Bool.and_eq_true] at hguard
      obtain ⟨⟨⟨⟨hm1d, hm2d⟩, hsl⟩, hy1d⟩, hy2d⟩ := hguard
      obtain ⟨hm1lo, hm1hi⟩ := (isDigit_iff_toNat m1).mp hm1d
      obtain ⟨hm2lo, hm2hi⟩ := (isDigit_iff_toNat m2).mp hm2d
      have hdv1 : digitVal m1 = m1.toNat - 48 := rfl
      have hdv2 : digitVal m2 = m2.toNat - 48 := rfl
      have hm1s := isJsSpace_false_of_digit m1 hm1d
      have hy2s := isJsSpace_false_of_digit y2 hy2d
      have hA : (jsTrim s).isEmpty = false := by
        unfold jsTrim
        rw [heq]
        simp [List.dropWhile_cons, hm1s, hy2s]
      have h48 : Char.toNat '0' = 48 := rfl
      have h49 : Char.toNat '1' = 49 := rfl
      have h50 : Char.toNat '2' = 50 := rfl
      have h57 : Char.toNat '9' = 57 := rfl
      have hreg : Vue.expiryRegexMatch s.data = true := by
        rw [heq]
        unfold Vue.expiryRegexMatch
        simp only [Bool.and_eq_true, Bool.or_eq_true]
        refine ⟨⟨⟨?_, hsl⟩, hy1d⟩, hy2d⟩
        by_cases hc : m1.toNat = 48
        · left
          have hm1 : m1 = '0' := char_eq_of_toNat m1 48 hc
          subst hm1
          exact ⟨⟨rfl, char_le_decide '1' m2 (by omega)⟩,
            char_ge_decide m2 '9' (by omega)⟩
        · right
          have hc1 : m1.toNat = 49 := by omega
          have hm1 : m1 = '1' := char_eq_of_toNat m1 49 hc1
          subst hm1
          exact ⟨⟨rfl, char_le_decide '0' m2 (by omega)⟩,
            char_ge_decide m2 '2' (by omega)⟩
      unfold Vue.validateExpiryDate
      rw [if_neg (by simp [hA]), if_neg (by simp [hreg])]
    next hguard => exact absurd hp (by simp)
  next heq => exact absurd hp (by simp)

end ExpiryLemmas

/-- C4 counterexample: the claim says both implementations reject any
expiry strictly in the past; the Vue `validateExpiryDate` accepts
`"01/20"` (January 2020), which the claim's acceptance predicate rejects
for the current month/year October 2025. -/
theorem C4_counterexample_vue_accepts_past_expiry :
    Vue.validateExpiryDate "01/20" = none ∧ specExpiryAccept 2025 9 "01/20" = false := by
  constructor <;> decide

/-- C4 amended: the plain-DOM expiry validator satisfies the claimed
property — it accepts exactly the MM/YY inputs with month 1–12 that are not
strictly before the current month/year (`cy` the current year, `cm` the
0-based current month index, `cm ≤ 11`); the Vue validator checks only the
format and month range — it accepts exactly the MM/YY inputs with month
1–12 regardless of any current date, so it accepts the past `"01/20"` while
still rejecting `"13/25"` and accepting the current month. -/
theorem C4_expiry_validators :
    (∀ (cy cm : Nat) (s : String), cm ≤ 11 →
      (checkoutValidators.expiry cy cm s = none ↔ specExpiryAccept cy cm s = true)) ∧
    (∀ s, Vue.validateExpiryDate s = none ↔
      ∃ mm yy, parseMMYY s = some (mm, yy) ∧ 1 ≤ mm ∧ mm ≤ 12) ∧
    checkoutValidators.expiry 2025 9 "13/25" ≠ none ∧
    Vue.validateExpiryDate "13/25" ≠ none ∧
    checkoutValidators.expiry 2025 9 "10/25" = none ∧
    Vue.validateExpiryDate "10/25" = none ∧
    checkoutValidators.expiry 2025 9 "01/20" ≠ none := by
  refine ⟨?_, ?_, by decide, by decide, by decide, by decide, by decide⟩
  · intro cy cm s hcm
    unfold checkoutValidators.expiry specExpiryAccept
    cases hp : parseMMYY s with
    | none => simp [hp]
    | some p =>
      obtain ⟨mm, yy⟩ := p
      simp only [hp]
      rw [iteBoolSomeEqNone, iteSomeNoneEqNone]
      simp only [Bool.or_eq_false_iff, decide_eq_false_iff_not, Bool.and_eq_true,
        Bool.not_eq_true', Bool.and_eq_false_iff, decide_eq_true_eq]
      omega
  · intro s
    constructor
    · intro h
      unfold Vue.validateExpiryDate at h
      rw [iteBoolSomeEqNone, iteBoolSomeNoneEqNone] at h
      obtain ⟨hA, hC⟩ := h
      rw [Bool.not_eq_false'] at hC
      exact expiryRegexMatch_parse s hC
    · rintro ⟨mm, yy, hp, h1, h2⟩
      exact parse_vueExpiry_accept s mm yy hp h1 h2

/-- Witness for C4's plain-DOM conjunct at the current month/year
October 2025 and the input of the current month. -/
theorem C4_expiry_validators_witness :
    (9 : Nat) ≤ 11 ∧
    (checkoutValidators.expiry 2025 9 "10/25" = none ↔
      specExpiryAccept 2025 9 "10/25" = true) :=
  ⟨by norm_num, C4_expiry_validators.1 2025 9 "10/25" (by norm_num)⟩

/-- C2 counterexample: the claim says an empty-cart submission is blocked
in both checkout implementations; the Vue `handleSubmit` performs no
cart-emptiness check, so with an empty cart and fully valid fields it
places the order instead of blocking. -/
theorem C2_counterexample_vue_submits_empty_cart :
    Vue.validateForm ⟨"John Doe", "john@example.com", "0412345678", "123 Main Street",
      "Melbourne", "VIC", "3000", "4111 1111 1111 1111", "12/30", "123", "John Doe"⟩ = true ∧
    (Vue.handleSubmit ⟨"John Doe", "john@example.com", "0412345678", "123 Main Street",
      "Melbourne", "VIC", "3000", "4111 1111 1111 1111", "12/30", "123", "John Doe"⟩
      [] 0 0 1700000000000).isSome = true := by
  constructor <;> decide

/-- C2 amended: in the plain-DOM implementation the submit handler checks
cart emptiness first and independently of the fields — any submission whose
reloaded cart is empty yields the distinct empty-cart outcome whatever the
field values are.  The Vue `handleSubmit` has no cart-emptiness check: once
the fields validate, it places the order for every cart, the empty one
included. -/
theorem C2_empty_cart_blocking :
    (∀ (cy cm : Nat) (f : DomCheckoutFields) (st : AppState),
      (loadCartFromStorage st).cart = [] →
      (checkoutSubmit cy cm f st).1 = SubmitOutcome.emptyCart) ∧
    (∀ (f : Vue.FormData) (cartItems : List CartItem) (cartTotal shippingCost : ℚ) (now : Nat),
      Vue.validateForm f = true →
      (Vue.handleSubmit f cartItems cartTotal shippingCost now).isSome = true) := by
  constructor
  · intro cy cm f st h
    simp [checkoutSubmit, h]
  · intro f cartItems cartTotal shippingCost now h
    simp [Vue.handleSubmit, h]

/-- Witness for C2: a fresh empty state is blocked by the plain-DOM
handler even with blank fields, and a concrete fully valid Vue form
submits (with the empty cart). -/
theorem C2_empty_cart_blocking_witness :
    (checkoutSubmit 2025 9 ⟨"", "", "", "", "", "", "", ""⟩ ⟨[], none⟩).1
      = SubmitOutcome.emptyCart ∧
    (Vue.handleSubmit ⟨"Jane Roe", "jane@example.org", "0498765432", "9 High Street",
      "Sydney", "NSW", "2000", "5500 0055 5555 5559", "11/29", "456", "Jane Roe"⟩
      [] 0 0 42).isSome = true := by
  constructor
  · exact C2_empty_cart_blocking.1 2025 9 ⟨"", "", "", "", "", "", "", ""⟩ ⟨[], none⟩ rfl
  · exact C2_empty_cart_blocking.2 ⟨"Jane Roe", "jane@example.org", "0498765432",
      "9 High Street", "Sydney", "NSW", "2000", "5500 0055 5555 5559", "11/29", "456",
      "Jane Roe"⟩ [] 0 0 42 (by decide)
